import Mathlib

/-!
Verification of the analytics pipeline in `src/app.py`.

The source is a single-script pandas pipeline over three tabular datasets
(biometric-update events, enrolment events, demographic snapshots).  This file
gives a shallow embedding of it: tables are lists of row structures, pandas
aggregations become explicit list computations over `Nat`/`ℚ`, and IEEE-float
special values (NaN, ±inf, which only arise through division by zero in this
program) are modelled by `Option` (`none` = NaN/inf).  The z-score and Pearson
correlation are real-valued (they involve a square root), so those two columns
live in `Option ℝ`; everything feeding them stays computable over `ℚ`.
-/

/-- Calendar date (the `date` column; time-zone-naive), compared
lexicographically by (year, month, day). -/
structure Date where
  year : Nat
  month : Nat
  day : Nat
deriving DecidableEq

/-- Boolean `a ≤ b` on calendar dates (lexicographic), used by the filter
stage (`df["date"].dt.date >= start`, `<= end` in the source). -/
def Date.ble (a b : Date) : Bool :=
  decide (a.year < b.year) ||
    (decide (a.year = b.year) &&
      (decide (a.month < b.month) ||
        (decide (a.month = b.month) && decide (a.day ≤ b.day))))

/-- A calendar month, the result of truncating a date to its containing month
(`date.dt.to_period("M").dt.to_timestamp()` at line 212 of the source). -/
structure Month where
  year : Nat
  mon : Nat
deriving DecidableEq

/-- Truncate a date to its containing month. -/
def Date.toMonth (d : Date) : Month := ⟨d.year, d.month⟩

/-- Boolean `a ≤ b` on months (chronological = lexicographic). -/
def Month.ble (a b : Month) : Bool :=
  decide (a.year < b.year) || (decide (a.year = b.year) && decide (a.mon ≤ b.mon))

/-- One row of `biometric.csv` after column lower-casing: the two biometric
age-band count columns are `bio_age_5_17` and `bio_age_17_`. -/
structure BioRow where
  date : Date
  state : String
  district : String
  bio_age_5_17 : Nat
  bio_age_17_ : Nat
deriving DecidableEq

/-- One row of `enrolment.csv`: three enrolment age-band count columns. -/
structure EnrRow where
  date : Date
  state : String
  district : String
  age_0_5 : Nat
  age_5_17 : Nat
  age_18_greater : Nat
deriving DecidableEq

/-- One row of `demographic.csv`: two demographic age-band count columns. -/
structure DemoRow where
  date : Date
  state : String
  district : String
  demo_age_5_17 : Nat
  demo_age_17_ : Nat
deriving DecidableEq

/-- The sidebar filter inputs: a date interval and the `State` selectbox value
(the literal string `"All"` means no state restriction). -/
structure Filters where
  startDate : Date
  endDate : Date
  state : String
deriving DecidableEq

/-- Embedding of `apply_filters` (source lines 58-63).  The date mask keeps
rows with `start <= date <= end`; then, exactly when the selected state is not
the sentinel `"All"`, rows are further restricted to `df["state"] == state`.
It is generic in the row type, as the one Python function is applied to all
three tables; `dOf`/`sOf` project the `date`/`state` columns. -/
def applyFilters {α : Type} (dOf : α → Date) (sOf : α → String)
    (fs : Filters) (df : List α) : List α :=
  let dfd := df.filter (fun r => Date.ble fs.startDate (dOf r) && Date.ble (dOf r) fs.endDate)
  if fs.state ≠ "All" then dfd.filter (fun r => decide (sOf r = fs.state)) else dfd

/-- Insertion step for `sortBy`: place `a` before the first element `b` with
`le a b`. -/
def insertBy {α : Type} (le : α → α → Bool) (a : α) : List α → List α
  | [] => [a]
  | b :: bs => if le a b then a :: b :: bs else b :: insertBy le a bs

/-- Insertion sort by a boolean comparison.  Models the sorted key order that
pandas `groupby(..., sort=True)` and `sort_values` produce. -/
def sortBy {α : Type} (le : α → α → Bool) (l : List α) : List α :=
  l.foldr (insertBy le) []

/-- The distinct `(state, district)` keys of a table, i.e. the group keys of
`groupby(["state", "district"])`.  Key order is immaterial to every property
proved below, so the (sorted) pandas key order is not reproduced. -/
def sdKeys {α : Type} (sOf dOf : α → String) (l : List α) : List (String × String) :=
  (l.map (fun r => (sOf r, dOf r))).dedup

/-- Sum of a numeric column over the rows of one `(state, district)` group
(the per-group result of `groupby(["state","district"])[cols].sum()`). -/
def colSum {α : Type} (sOf dOf : α → String) (col : α → Nat)
    (l : List α) (k : String × String) : Nat :=
  ((l.filter (fun r => decide ((sOf r, dOf r) = k))).map col).sum

/-- One row of the `merged` district-level table (source lines 145-153): the
seven per-group column sums from the three tables, inner-joined on
`(state, district)`, plus the derived `population`, `biometrics`,
`enrolments` columns. -/
structure AggRow where
  state : String
  district : String
  demo_age_5_17 : Nat
  demo_age_17_ : Nat
  bio_age_5_17 : Nat
  bio_age_17_ : Nat
  age_0_5 : Nat
  age_5_17 : Nat
  age_18_greater : Nat
  population : Nat
  biometrics : Nat
  enrolments : Nat
deriving DecidableEq

/-- Embedding of the `merged` construction (source lines 145-153):
`demo_d.merge(bio_d, on=["state","district"]).merge(enr_d, ...)` with the
default inner-join semantics — a key survives only if it occurs in all three
grouped tables — followed by the three derived-column assignments.
Row order (pandas emits sorted group keys) is immaterial to the properties
proved below. -/
def mergedTable (dF : List DemoRow) (bF : List BioRow) (eF : List EnrRow) : List AggRow :=
  ((sdKeys DemoRow.state DemoRow.district dF).filter
      (fun k => decide (k ∈ sdKeys BioRow.state BioRow.district bF) &&
        decide (k ∈ sdKeys EnrRow.state EnrRow.district eF))).map
    (fun k =>
      let d517 := colSum DemoRow.state DemoRow.district DemoRow.demo_age_5_17 dF k
      let d17 := colSum DemoRow.state DemoRow.district DemoRow.demo_age_17_ dF k
      let b517 := colSum BioRow.state BioRow.district BioRow.bio_age_5_17 bF k
      let b17 := colSum BioRow.state BioRow.district BioRow.bio_age_17_ bF k
      let a05 := colSum EnrRow.state EnrRow.district EnrRow.age_0_5 eF k
      let a517 := colSum EnrRow.state EnrRow.district EnrRow.age_5_17 eF k
      let a18 := colSum EnrRow.state EnrRow.district EnrRow.age_18_greater eF k
      { state := k.1, district := k.2,
        demo_age_5_17 := d517, demo_age_17_ := d17,
        bio_age_5_17 := b517, bio_age_17_ := b17,
        age_0_5 := a05, age_5_17 := a517, age_18_greater := a18,
        population := d517 + d17, biometrics := b517 + b17,
        enrolments := a05 + a517 + a18 })

/-- The population floor (source line 155): `merged = merged[merged["population"] > 10_000]`. -/
def mergedFloored (dF : List DemoRow) (bF : List BioRow) (eF : List EnrRow) : List AggRow :=
  (mergedTable dF bF eF).filter (fun r => decide (10000 < r.population))

/-- Float division `a / b`, with `none` standing for the NaN (or ±inf) that
IEEE arithmetic produces when `b = 0`.  In this program any non-finite value
arises only through a zero denominator, so `Option ℚ` is a faithful model of
the float columns. -/
def qdiv (a b : ℚ) : Option ℚ := if b = 0 then none else some (a / b)

/-- Embedding of `national_rate = merged["biometrics"].sum() / merged["population"].sum()`
(source line 162). -/
def nationalRate (t : List AggRow) : Option ℚ :=
  qdiv ((t.map (fun r => (r.biometrics : ℚ))).sum) ((t.map (fun r => (r.population : ℚ))).sum)

/-- One row of the intensity-index result (the columns of `merged` consumed by
the `top_districts` chart; the non-derived columns not used downstream are
dropped here). -/
structure IRow where
  state : String
  district : String
  population : Nat
  biometrics : Nat
  biometric_intensity_index : Option ℚ
deriving DecidableEq

/-- Embedding of source lines 163-165:
`merged["biometric_intensity_index"] = (merged["biometrics"] / merged["population"]) / national_rate`.
NaN propagates through the two float divisions. -/
def intensityTable (t : List AggRow) : List IRow :=
  t.map (fun r =>
    { state := r.state, district := r.district,
      population := r.population, biometrics := r.biometrics,
      biometric_intensity_index :=
        match qdiv (r.biometrics : ℚ) (r.population : ℚ), nationalRate t with
        | some pc, some nr => qdiv pc nr
        | _, _ => none })

/-- Descending comparison on the float intensity column, with NaN sorted last
(`sort_values(..., ascending=False)` default `na_position="last"`). -/
def idxGe (a b : Option ℚ) : Bool :=
  match a, b with
  | some x, some y => decide (y ≤ x)
  | some _, none => true
  | none, some _ => false
  | none, none => true

/-- Embedding of source lines 167-169: sort by the intensity index descending
and take the first 10 rows (`head(10)`).  NaN rows are sorted last but are
NOT dropped, so they can still appear in the presented table. -/
def topDistricts (t : List AggRow) : List IRow :=
  (sortBy (fun a b => idxGe a.biometric_intensity_index b.biometric_intensity_index)
    (intensityTable t)).take 10

/-- The distinct districts of the filtered biometric table — the group keys of
`groupby(["district", "month"])` projected to the district (note the source
keys the monthly series by district alone, not by `(state, district)`). -/
def districtsOf (bF : List BioRow) : List String :=
  (bF.map (fun r => r.district)).dedup

/-- The months observed for one district, sorted chronologically — the
`month` part of the sorted `(district, month)` group keys of source line 214. -/
def monthsOf (bF : List BioRow) (d : String) : List Month :=
  sortBy Month.ble
    (((bF.filter (fun r => decide (r.district = d))).map (fun r => r.date.toMonth)).dedup)

/-- `biometrics_total` of one `(district, month)` group: the two biometric
columns are summed over the group (line 216) and then added (line 218). -/
def bioMonthTotal (bF : List BioRow) (d : String) (m : Month) : Nat :=
  ((bF.filter (fun r => decide (r.district = d) && decide (r.date.toMonth = m))).map
      (fun r => r.bio_age_5_17)).sum +
    ((bF.filter (fun r => decide (r.district = d) && decide (r.date.toMonth = m))).map
      (fun r => r.bio_age_17_)).sum

/-- The `(month, biometrics_total)` rows of one district of the `monthly`
table, in ascending month order (pandas sorts the group keys, so within a
district the rows of `monthly` are month-ascending — this ordering is what
makes the `first`/`last` aggregation of line 220 pick the earliest/latest
month). -/
def monthlyFor (bF : List BioRow) (d : String) : List (Month × Nat) :=
  (monthsOf bF d).map (fun m => (m, bioMonthTotal bF d m))

/-- One row of the `monthly` table (source lines 214-218). -/
structure MRow where
  district : String
  month : Month
  biometrics_total : Nat
deriving DecidableEq

/-- The `monthly` table: one row per observed `(district, month)` pair. -/
def monthlyTable (bF : List BioRow) : List MRow :=
  ((districtsOf bF).map (fun d => (monthlyFor bF d).map (fun p => ⟨d, p.1, p.2⟩))).flatten

/-- Mean of a rational series (`ℚ` division; a nonempty series is the only
case that occurs, every group having at least one row). -/
def meanQ (xs : List ℚ) : ℚ := xs.sum / (xs.length : ℚ)

/-- Population variance (`ddof = 0`, the `scipy.stats.zscore` default). -/
def varQ (xs : List ℚ) : ℚ :=
  ((xs.map (fun x => (x - meanQ xs) ^ 2)).sum) / (xs.length : ℚ)

/-- The per-district series of `biometrics_total` values (month-ascending),
over which the grouped z-score transform of line 246 is computed. -/
def seriesOf (bF : List BioRow) (d : String) : List ℚ :=
  (monthlyFor bF d).map (fun p => (p.2 : ℚ))

/-- Embedding of `scipy.stats.zscore(x, nan_policy="omit")` applied per
district (source lines 246-248): `(x - mean) / std` with the population
standard deviation `std = sqrt(var)`.  When the variance is zero the float
division is `0/0 = NaN`, modelled `none` (`nan_policy="omit"` is inert here:
the input counts are never NaN). -/
noncomputable def zScoreOf (bF : List BioRow) (d : String) (m : Month) : Option ℝ :=
  let xs := seriesOf bF d
  if varQ xs = 0 then none
  else some ((((bioMonthTotal bF d m : ℚ) - meanQ xs : ℚ) : ℝ) / Real.sqrt ((varQ xs : ℚ) : ℝ))

/-- One row of `monthly` after the `z_score` column assignment. -/
structure MZRow where
  district : String
  month : Month
  biometrics_total : Nat
  z : Option ℝ

/-- The `monthly` table with its `z_score` column (source line 246). -/
noncomputable def monthlyZ (bF : List BioRow) : List MZRow :=
  ((districtsOf bF).map (fun d =>
    (monthlyFor bF d).map (fun p => ⟨d, p.1, p.2, zScoreOf bF d p.1⟩))).flatten

/-- Maximum of a list of months (`monthly["month"].max()`, source line 250);
`none` when the table is empty (pandas NaT). -/
def maxMonth : List Month → Option Month :=
  List.foldr (fun m acc =>
    match acc with
    | none => some m
    | some x => some (if Month.ble m x then x else m)) none

/-- `latest_month` of source line 250. -/
def latestMonth (bF : List BioRow) : Option Month :=
  maxMonth ((monthlyTable bF).map (fun r => r.month))

/-- The float comparison `z_score > 3` of source line 251: false on NaN
(`none`), true exactly when the score is a number strictly above 3 (the
order on ℝ is decidable only classically, hence `noncomputable`). -/
noncomputable def floatGtThree (z : Option ℝ) : Bool :=
  decide (∃ v, z = some v ∧ (3 : ℝ) < v)

/-- Embedding of `spikes = monthly[(monthly["month"] == latest_month) & (monthly["z_score"] > 3)]`
(source line 251). -/
noncomputable def spikes (bF : List BioRow) : List MZRow :=
  (monthlyZ bF).filter (fun r =>
    decide (latestMonth bF = some r.month) && floatGtThree r.z)

/-- One row of the `trend` growth-ranking table (source lines 220-226). -/
structure TrendRow where
  district : String
  first_val : Nat
  last_val : Nat
  growth_rate : ℚ
deriving DecidableEq

/-- Embedding of source lines 220-226: per district, `first_val`/`last_val`
are the first/last `biometrics_total` of that district's rows of `monthly`
(which are month-ascending, see `monthlyFor`); districts with
`first_val > 0` survive, and `growth_rate = (last_val - first_val) / first_val`
(float division, exact here since `first_val ≠ 0`). -/
def trendTable (bF : List BioRow) : List TrendRow :=
  (districtsOf bF).filterMap (fun d =>
    match (monthlyFor bF d).head?, (monthlyFor bF d).getLast? with
    | some f, some l =>
        if 0 < f.2 then
          some ⟨d, f.2, l.2, ((l.2 : ℚ) - (f.2 : ℚ)) / (f.2 : ℚ)⟩
        else none
    | _, _ => none)

/-- Source line 228: sort by `growth_rate` descending, take the top 10. -/
def trendTop (bF : List BioRow) : List TrendRow :=
  (sortBy (fun a b => decide (b.growth_rate ≤ a.growth_rate)) (trendTable bF)).take 10

/-- Per-date sums of the adult enrolment column
(`enrolment_f.groupby("date")[["age_18_greater"]].sum()`, source line 264). -/
def enrDateSums (eF : List EnrRow) : List (Date × Nat) :=
  ((eF.map (fun r => r.date)).dedup).map (fun d =>
    (d, ((eF.filter (fun r => decide (r.date = d))).map (fun r => r.age_18_greater)).sum))

/-- Per-date sums of the adult biometric column (source line 266). -/
def bioDateSums (bF : List BioRow) : List (Date × Nat) :=
  ((bF.map (fun r => r.date)).dedup).map (fun d =>
    (d, ((bF.filter (fun r => decide (r.date = d))).map (fun r => r.bio_age_17_)).sum))

/-- Embedding of `corr_df` (source lines 262-270): the two per-date series
inner-joined on `date`; only dates present in both survive.  Row order is
immaterial to the correlation. -/
def corrDf (eF : List EnrRow) (bF : List BioRow) : List (Date × Nat × Nat) :=
  (enrDateSums eF).filterMap (fun p =>
    match (bioDateSums bF).find? (fun q => decide (q.1 = p.1)) with
    | some q => some (p.1, p.2, q.2)
    | none => none)

/-- The aligned adult-enrolment series of `corr_df`. -/
def corrX (c : List (Date × Nat × Nat)) : List ℚ := c.map (fun p => (p.2.1 : ℚ))

/-- The aligned adult-biometric series of `corr_df`. -/
def corrY (c : List (Date × Nat × Nat)) : List ℚ := c.map (fun p => (p.2.2 : ℚ))

/-- Sum of products of deviations, `Σ (x - mean x)(y - mean y)`; `sxy xs xs`
is the (unnormalised) variance.  The `1/n` normalisation cancels in the
Pearson quotient, so it is omitted. -/
def sxy (xs ys : List ℚ) : ℚ :=
  ((xs.zip ys).map (fun p => (p.1 - meanQ xs) * (p.2 - meanQ ys))).sum

/-- Pearson correlation coefficient, the formula behind
`corr_df["age_18_greater"].corr(corr_df["bio_age_17_"])` (source line 274):
`Σ dx·dy / sqrt(Σ dx² · Σ dy²)`.  When either series has zero variance
(including fewer than two points) the float result is NaN, modelled `none`. -/
noncomputable def pearson (xs ys : List ℚ) : Option ℝ :=
  if sxy xs xs = 0 ∨ sxy ys ys = 0 then none
  else some (((sxy xs ys : ℚ) : ℝ) /
    Real.sqrt (((sxy xs xs : ℚ) : ℝ) * ((sxy ys ys : ℚ) : ℝ)))

/-- `lead_corr` of source line 274, from the filtered tables. -/
noncomputable def leadCorr (eF : List EnrRow) (bF : List BioRow) : Option ℝ :=
  pearson (corrX (corrDf eF bF)) (corrY (corrDf eF bF))

/-- The script's top-level bindings, as a state record: the three loaded
source tables and the derived tables the script assigns.  Every pandas
operation in the script returns a fresh object (boolean-mask indexing,
`groupby().sum()`, `merge` all copy, and line 211 calls `.copy()` explicitly
before the `month` column assignment), so each column assignment
(`merged[...] = ...`, `monthly["z_score"] = ...`, ...) mutates only the
binding being built, which the embedding reflects by updating only that
field. -/
structure ScriptState where
  biometric : List BioRow
  enrolment : List EnrRow
  demographic : List DemoRow
  biometric_f : List BioRow
  enrolment_f : List EnrRow
  demographic_f : List DemoRow
  merged : List AggRow
  monthly : List MRow
  trend : List TrendRow
  corr_df : List (Date × Nat × Nat)

/-- Loading stage (source lines 23-36): the three CSVs become the three
source tables; nothing else is bound yet. -/
def loadState (b : List BioRow) (e : List EnrRow) (d : List DemoRow) : ScriptState :=
  ⟨b, e, d, [], [], [], [], [], [], []⟩

/-- Source lines 66-68: the three filtered tables. -/
def stepFilters (fs : Filters) (s : ScriptState) : ScriptState :=
  { s with
    biometric_f := applyFilters BioRow.date BioRow.state fs s.biometric
    enrolment_f := applyFilters EnrRow.date EnrRow.state fs s.enrolment
    demographic_f := applyFilters DemoRow.date DemoRow.state fs s.demographic }

/-- Source lines 145-155: district aggregation, join, derived columns and
population floor, all landing in the `merged` binding. -/
def stepMerged (s : ScriptState) : ScriptState :=
  { s with merged := mergedFloored s.demographic_f s.biometric_f s.enrolment_f }

/-- Source lines 211-218: the monthly district series (built from
`biometric_f.copy()`). -/
def stepMonthly (s : ScriptState) : ScriptState :=
  { s with monthly := monthlyTable s.biometric_f }

/-- Source lines 220-228: the growth-rate table. -/
def stepTrend (s : ScriptState) : ScriptState :=
  { s with trend := trendTable s.biometric_f }

/-- Source lines 262-270: the correlation input table. -/
def stepCorr (s : ScriptState) : ScriptState :=
  { s with corr_df := corrDf s.enrolment_f s.biometric_f }

/-- The full pipeline run over the script state (the indicator scalars and the
z-score / intensity columns are pure functions of these bindings and allocate
further fresh tables). -/
def runScript (fs : Filters) (s : ScriptState) : ScriptState :=
  stepCorr (stepTrend (stepMonthly (stepMerged (stepFilters fs s))))

/-! ### Concrete inputs used by the witnesses and counterexamples below -/

/-- C1 failing input, demographic table: one district `("S","D")` with
population 12000 + 9000 = 21000 (above the floor). -/
def c1Demo : List DemoRow := [⟨⟨2021, 1, 1⟩, "S", "D", 12000, 9000⟩]

/-- C1 failing input, biometric table: the district has zero biometric
activity, so the national biometric sum is 0. -/
def c1Bio : List BioRow := [⟨⟨2021, 1, 1⟩, "S", "D", 0, 0⟩]

/-- C1 failing input, enrolment table (present so the inner join keeps the
district). -/
def c1Enr : List EnrRow := [⟨⟨2021, 1, 1⟩, "S", "D", 0, 0, 0⟩]

/-- C1 failing input, filter settings: full range, no state restriction. -/
def c1Filters : Filters := ⟨⟨2021, 1, 1⟩, ⟨2021, 12, 31⟩, "All"⟩

/-- The `merged` table of the C1 failing run. -/
def c1MergedF : List AggRow :=
  mergedFloored (applyFilters DemoRow.date DemoRow.state c1Filters c1Demo)
    (applyFilters BioRow.date BioRow.state c1Filters c1Bio)
    (applyFilters EnrRow.date EnrRow.state c1Filters c1Enr)

/-- C2 input: one district `"D"` whose `biometrics_total` is 5 in each of its
two observed months. -/
def c2Bio : List BioRow :=
  [⟨⟨2021, 1, 1⟩, "S", "D", 5, 0⟩, ⟨⟨2021, 2, 1⟩, "S", "D", 5, 0⟩]

/-- C3 input: one district `"D"` with 11 monthly totals
`[2, 5, 6, 6, 8, 8, 8, 8, 9, 9, 41]` (mean 10, population variance 100), so
the last month's z-score is `(41 - 10) / 10 = 3.1 > 3`. -/
def c3Bio : List BioRow :=
  [⟨⟨2021, 1, 1⟩, "S", "D", 2, 0⟩, ⟨⟨2021, 2, 1⟩, "S", "D", 5, 0⟩,
   ⟨⟨2021, 3, 1⟩, "S", "D", 6, 0⟩, ⟨⟨2021, 4, 1⟩, "S", "D", 6, 0⟩,
   ⟨⟨2021, 5, 1⟩, "S", "D", 8, 0⟩, ⟨⟨2021, 6, 1⟩, "S", "D", 8, 0⟩,
   ⟨⟨2021, 7, 1⟩, "S", "D", 8, 0⟩, ⟨⟨2021, 8, 1⟩, "S", "D", 8, 0⟩,
   ⟨⟨2021, 9, 1⟩, "S", "D", 9, 0⟩, ⟨⟨2021, 10, 1⟩, "S", "D", 9, 0⟩,
   ⟨⟨2021, 11, 1⟩, "S", "D", 41, 0⟩]

/-- C3 second input: a district with a single observed month. -/
def c3OneBio : List BioRow := [⟨⟨2021, 1, 1⟩, "S", "E", 7, 3⟩]

/-- C4 input: district `"G"` grows 100 → 200 over two months; district `"Z"`
has a zero first month and 500 in the second. -/
def c4Bio : List BioRow :=
  [⟨⟨2021, 1, 1⟩, "S", "G", 100, 0⟩, ⟨⟨2021, 2, 1⟩, "S", "G", 200, 0⟩,
   ⟨⟨2021, 1, 1⟩, "S", "Z", 0, 0⟩, ⟨⟨2021, 2, 1⟩, "S", "Z", 500, 0⟩]

/-- C5 scenario, demographic table: districts `Alpha`/`Beta`/`Gamma` with
populations 50000 / 20000 / 5000. -/
def c5Demo : List DemoRow :=
  [⟨⟨2021, 1, 1⟩, "St", "Alpha", 30000, 20000⟩,
   ⟨⟨2021, 1, 1⟩, "St", "Beta", 12000, 8000⟩,
   ⟨⟨2021, 1, 1⟩, "St", "Gamma", 3000, 2000⟩]

/-- C5 scenario, biometric table: identical biometric counts of 1000 each. -/
def c5Bio : List BioRow :=
  [⟨⟨2021, 1, 1⟩, "St", "Alpha", 1000, 0⟩,
   ⟨⟨2021, 1, 1⟩, "St", "Beta", 1000, 0⟩,
   ⟨⟨2021, 1, 1⟩, "St", "Gamma", 1000, 0⟩]

/-- C5 scenario, enrolment table (so all three districts survive the join). -/
def c5Enr : List EnrRow :=
  [⟨⟨2021, 1, 1⟩, "St", "Alpha", 0, 0, 0⟩,
   ⟨⟨2021, 1, 1⟩, "St", "Beta", 0, 0, 0⟩,
   ⟨⟨2021, 1, 1⟩, "St", "Gamma", 0, 0, 0⟩]

/-- C6 input: district `D2` occurs only in the demographic table, `D1` in all
three. -/
def c6Demo : List DemoRow :=
  [⟨⟨2021, 1, 1⟩, "S", "D1", 7000, 6000⟩, ⟨⟨2021, 1, 1⟩, "S", "D2", 9000, 9000⟩]

/-- C6 biometric table: only `D1`. -/
def c6Bio : List BioRow := [⟨⟨2021, 1, 1⟩, "S", "D1", 10, 20⟩]

/-- C6 enrolment table: only `D1`. -/
def c6Enr : List EnrRow := [⟨⟨2021, 1, 1⟩, "S", "D1", 1, 2, 3⟩]

/-- C7 witness filters: an empty interval (`start > end`). -/
def c7Filters : Filters := ⟨⟨2022, 1, 1⟩, ⟨2021, 1, 1⟩, "All"⟩

/-- C8 input, enrolment side: adult enrolments 1 then 2 on two dates. -/
def c8Enr : List EnrRow :=
  [⟨⟨2021, 1, 1⟩, "S", "D", 0, 0, 1⟩, ⟨⟨2021, 1, 2⟩, "S", "D", 0, 0, 2⟩]

/-- C8 input, biometric side: the same series 1 then 2 on the same dates. -/
def c8Bio : List BioRow :=
  [⟨⟨2021, 1, 1⟩, "S", "D", 0, 1⟩, ⟨⟨2021, 1, 2⟩, "S", "D", 0, 2⟩]

/-- C10 input: the data itself contains a state literally named `"All"`
besides a state `"X"`, all rows dated inside the filter range. -/
def c10Bio : List BioRow :=
  [⟨⟨2021, 3, 1⟩, "All", "D1", 1, 2⟩, ⟨⟨2021, 4, 1⟩, "X", "D2", 3, 4⟩]

/-- C10 witness filters: region `"All"` selected. -/
def c10Filters : Filters := ⟨⟨2021, 1, 1⟩, ⟨2021, 12, 31⟩, "All"⟩

/-! ### Order lemmas for dates and months -/

theorem month_ble_iff (a b : Month) :
    Month.ble a b = true ↔ (a.year < b.year ∨ (a.year = b.year ∧ a.mon ≤ b.mon)) := by
  simp [Month.ble]

theorem month_ble_refl (a : Month) : Month.ble a a = true := by
  simp [month_ble_iff]

theorem month_ble_total (a b : Month) : Month.ble a b = true ∨ Month.ble b a = true := by
  rw [month_ble_iff, month_ble_iff]; omega

theorem month_ble_trans {a b c : Month} (h1 : Month.ble a b = true)
    (h2 : Month.ble b c = true) : Month.ble a c = true := by
  rw [month_ble_iff] at h1 h2 ⊢; omega

theorem date_ble_iff (a b : Date) :
    Date.ble a b = true ↔
      (a.year < b.year ∨ (a.year = b.year ∧
        (a.month < b.month ∨ (a.month = b.month ∧ a.day ≤ b.day)))) := by
  simp [Date.ble]

theorem date_ble_trans {a b c : Date} (h1 : Date.ble a b = true)
    (h2 : Date.ble b c = true) : Date.ble a c = true := by
  rw [date_ble_iff] at h1 h2 ⊢; omega

/-! ### Lemmas about `sortBy` -/

theorem sortBy_cons {α : Type} (le : α → α → Bool) (b : α) (bs : List α) :
    sortBy le (b :: bs) = insertBy le b (sortBy le bs) := rfl

theorem mem_insertBy {α : Type} (le : α → α → Bool) (a x : α) (l : List α) :
    x ∈ insertBy le a l ↔ x = a ∨ x ∈ l := by
  induction l with
  | nil => simp [insertBy]
  | cons b bs ih =>
      by_cases h : le a b = true
      · simp [insertBy, h]
      · simp [insertBy, h, ih]
        tauto

theorem mem_sortBy {α : Type} (le : α → α → Bool) (x : α) (l : List α) :
    x ∈ sortBy le l ↔ x ∈ l := by
  induction l with
  | nil => simp [sortBy]
  | cons b bs ih => simp [sortBy_cons, mem_insertBy, ih]

theorem pairwise_insertBy {α : Type} {le : α → α → Bool}
    (total : ∀ a b, le a b = true ∨ le b a = true)
    (trans : ∀ {a b c}, le a b = true → le b c = true → le a c = true)
    (a : α) {l : List α} (hl : l.Pairwise (fun x y => le x y = true)) :
    (insertBy le a l).Pairwise (fun x y => le x y = true) := by
  induction l with
  | nil => simp [insertBy]
  | cons b bs ih =>
      rcases List.pairwise_cons.mp hl with ⟨hb, hbs⟩
      by_cases h : le a b = true
      · rw [insertBy, if_pos h]
        refine List.pairwise_cons.mpr ⟨?_, hl⟩
        intro y hy
        rcases List.mem_cons.mp hy with rfl | hy
        · exact h
        · exact trans h (hb y hy)
      · rw [insertBy, if_neg h]
        refine List.pairwise_cons.mpr ⟨?_, ih hbs⟩
        intro y hy
        rcases (mem_insertBy le a y bs).mp hy with hya | hy
        · rcases total a b with h1 | h1
          · exact absurd h1 h
          · rw [hya]; exact h1
        · exact hb y hy

theorem pairwise_sortBy {α : Type} {le : α → α → Bool}
    (total : ∀ a b, le a b = true ∨ le b a = true)
    (trans : ∀ {a b c}, le a b = true → le b c = true → le a c = true)
    (l : List α) : (sortBy le l).Pairwise (fun x y => le x y = true) := by
  induction l with
  | nil => simp [sortBy]
  | cons b bs ih => rw [sortBy_cons]; exact pairwise_insertBy total trans b ih

theorem head_min {α : Type} {le : α → α → Bool} {l : List α} {x : α}
    (hp : l.Pairwise (fun a b => le a b = true)) (hrefl : ∀ a, le a a = true)
    (hx : l.head? = some x) : ∀ y ∈ l, le x y = true := by
  cases l with
  | nil => cases hx
  | cons a t =>
      simp only [List.head?_cons, Option.some.injEq] at hx
      subst hx
      intro y hy
      rcases List.mem_cons.mp hy with rfl | hy
      · exact hrefl _
      · exact (List.pairwise_cons.mp hp).1 y hy

theorem mem_of_getLast?_eq {α : Type} :
    ∀ {l : List α} {x : α}, l.getLast? = some x → x ∈ l := by
  intro l
  induction l with
  | nil => intro x h; cases h
  | cons a t ih =>
      intro x h
      cases t with
      | nil =>
          simp only [List.getLast?_singleton, Option.some.injEq] at h
          simp [h]
      | cons b t2 =>
          rw [List.getLast?_cons_cons] at h
          exact List.mem_cons_of_mem a (ih h)

theorem last_max {α : Type} {le : α → α → Bool} :
    ∀ {l : List α} {x : α}, l.Pairwise (fun a b => le a b = true) →
      (∀ a, le a a = true) → l.getLast? = some x → ∀ y ∈ l, le y x = true := by
  intro l
  induction l with
  | nil => intro x _ _ hx; cases hx
  | cons a t ih =>
      intro x hp hrefl hx y hy
      cases t with
      | nil =>
          simp only [List.getLast?_singleton, Option.some.injEq] at hx
          subst hx
          rcases List.mem_cons.mp hy with rfl | hy
          · exact hrefl _
          · cases hy
      | cons b t2 =>
          rw [List.getLast?_cons_cons] at hx
          rcases List.mem_cons.mp hy with rfl | hy2
          · exact (List.pairwise_cons.mp hp).1 x (mem_of_getLast?_eq hx)
          · exact ih (List.pairwise_cons.mp hp).2 hrefl hx y hy2

/-! ### Lemmas about `maxMonth` -/

theorem maxMonth_cons (a : Month) (t : List Month) :
    maxMonth (a :: t) =
      match maxMonth t with
      | none => some a
      | some x => some (if Month.ble a x then x else a) := rfl

theorem maxMonth_spec : ∀ {ms : List Month} {M : Month}, maxMonth ms = some M →
    M ∈ ms ∧ ∀ m ∈ ms, Month.ble m M = true := by
  intro ms
  induction ms with
  | nil => intro M h; cases h
  | cons a t ih =>
      intro M h
      rw [maxMonth_cons] at h
      cases hmt : maxMonth t with
      | none =>
          simp only [hmt, Option.some.injEq] at h
          subst h
          have ht : t = [] := by
            cases t with
            | nil => rfl
            | cons b t2 =>
                rw [maxMonth_cons] at hmt
                cases h2 : maxMonth t2 with
                | none => simp [h2] at hmt
                | some x => simp [h2] at hmt
          subst ht
          refine ⟨List.mem_singleton_self a, ?_⟩
          intro m hm
          rcases List.mem_cons.mp hm with rfl | hm
          · exact month_ble_refl m
          · cases hm
      | some x =>
          simp only [hmt, Option.some.injEq] at h
          rcases ih hmt with ⟨hxmem, hall⟩
          by_cases hax : Month.ble a x = true
          · rw [if_pos hax] at h
            subst h
            refine ⟨List.mem_cons_of_mem a hxmem, ?_⟩
            intro m hm
            rcases List.mem_cons.mp hm with rfl | hm
            · exact hax
            · exact hall m hm
          · rw [if_neg hax] at h
            subst h
            refine ⟨List.mem_cons_self a t, ?_⟩
            intro m hm
            rcases List.mem_cons.mp hm with rfl | hm
            · exact month_ble_refl m
            · rcases month_ble_total a x with h1 | h1
              · exact absurd h1 hax
              · exact month_ble_trans (hall m hm) h1

/-! ### Statistics lemmas -/

theorem meanQ_const {xs : List ℚ} {c : ℚ} (hne : xs ≠ []) (h : ∀ x ∈ xs, x = c) :
    meanQ xs = c := by
  have hlen0 : xs.length ≠ 0 := by
    intro h0
    exact hne (List.length_eq_zero.mp h0)
  have hlen : ((xs.length : ℚ)) ≠ 0 := by exact_mod_cast hlen0
  have hsum : xs.sum = (xs.length : ℚ) * c := by
    rw [List.sum_eq_card_nsmul xs c h, nsmul_eq_mul]
  rw [meanQ, hsum, mul_div_cancel_left₀ c hlen]

theorem varQ_const {xs : List ℚ} {c : ℚ} (h : ∀ x ∈ xs, x = c) : varQ xs = 0 := by
  rcases eq_or_ne xs [] with rfl | hne
  · simp [varQ]
  · have hm := meanQ_const hne h
    have hz : ∀ y ∈ xs.map (fun x => (x - meanQ xs) ^ 2), y = 0 := by
      intro y hy
      rcases List.mem_map.mp hy with ⟨x, hx, rfl⟩
      rw [hm, h x hx]
      ring
    rw [varQ, List.sum_eq_zero hz, zero_div]

theorem varQ_singleton (x : ℚ) : varQ [x] = 0 :=
  varQ_const (by intro y hy; rcases List.mem_singleton.mp hy with rfl; rfl)

theorem zip_self {α : Type} : ∀ (xs : List α), xs.zip xs = xs.map (fun x => (x, x))
  | [] => rfl
  | a :: t => by rw [List.zip_cons_cons, List.map_cons, zip_self t]

theorem sxy_self_nonneg (xs : List ℚ) : 0 ≤ sxy xs xs := by
  rw [sxy, zip_self, List.map_map]
  apply List.sum_nonneg
  intro y hy
  rcases List.mem_map.mp hy with ⟨x, _, rfl⟩
  simpa using mul_self_nonneg (x - meanQ xs)

/-! ### Lemmas about the filter stage -/

theorem applyFilters_sublist {α : Type} (dOf : α → Date) (sOf : α → String)
    (fs : Filters) (l : List α) : (applyFilters dOf sOf fs l).Sublist l := by
  simp only [applyFilters]
  split
  · exact (List.filter_sublist _).trans (List.filter_sublist _)
  · exact List.filter_sublist _

theorem mem_applyFilters {α : Type} {dOf : α → Date} {sOf : α → String}
    {fs : Filters} {l : List α} {r : α} (h : r ∈ applyFilters dOf sOf fs l) :
    r ∈ l ∧ Date.ble fs.startDate (dOf r) = true ∧ Date.ble (dOf r) fs.endDate = true ∧
      (fs.state ≠ "All" → sOf r = fs.state) := by
  simp only [applyFilters] at h
  by_cases hs : fs.state ≠ "All"
  · rw [if_pos hs] at h
    rcases List.mem_filter.mp h with ⟨h1, h2⟩
    rcases List.mem_filter.mp h1 with ⟨h0, hdate⟩
    rw [Bool.and_eq_true] at hdate
    exact ⟨h0, hdate.1, hdate.2, fun _ => of_decide_eq_true h2⟩
  · rw [if_neg hs] at h
    rcases List.mem_filter.mp h with ⟨h0, hdate⟩
    rw [Bool.and_eq_true] at hdate
    exact ⟨h0, hdate.1, hdate.2, fun hc => absurd hc hs⟩

theorem applyFilters_empty {α : Type} (dOf : α → Date) (sOf : α → String)
    {fs : Filters} (l : List α) (h : Date.ble fs.startDate fs.endDate = false) :
    applyFilters dOf sOf fs l = [] := by
  apply List.eq_nil_iff_forall_not_mem.mpr
  intro r hr
  rcases mem_applyFilters hr with ⟨_, h1, h2, _⟩
  have h3 := date_ble_trans h1 h2
  rw [h3] at h
  cases h

theorem applyFilters_all_sentinel {α : Type} (dOf : α → Date) (sOf : α → String)
    {fs : Filters} (l : List α) (h : fs.state = "All") :
    applyFilters dOf sOf fs l =
      l.filter (fun r => Date.ble fs.startDate (dOf r) && Date.ble (dOf r) fs.endDate) := by
  simp [applyFilters, h]

/-! ### Lemmas about the monthly table and its z-score column -/

theorem mem_monthlyZ {bF : List BioRow} {r : MZRow} :
    r ∈ monthlyZ bF ↔ ∃ d ∈ districtsOf bF, ∃ p ∈ monthlyFor bF d,
      r = ⟨d, p.1, p.2, zScoreOf bF d p.1⟩ := by
  simp only [monthlyZ, List.mem_flatten, List.mem_map]
  constructor
  · rintro ⟨s, ⟨d, hd, rfl⟩, hr⟩
    rcases List.mem_map.mp hr with ⟨p, hp, rfl⟩
    exact ⟨d, hd, p, hp, rfl⟩
  · rintro ⟨d, hd, p, hp, rfl⟩
    exact ⟨_, ⟨d, hd, rfl⟩, List.mem_map_of_mem _ hp⟩

theorem monthlyZ_months (bF : List BioRow) :
    (monthlyZ bF).map (fun r => r.month) = (monthlyTable bF).map (fun r => r.month) := by
  rw [monthlyZ, monthlyTable, List.map_flatten, List.map_flatten, List.map_map, List.map_map]
  congr 1
  apply List.map_congr_left
  intro d _
  simp [Function.comp, List.map_map]

theorem monthsOf_sorted (bF : List BioRow) (d : String) :
    (monthsOf bF d).Pairwise (fun a b => Month.ble a b = true) :=
  pairwise_sortBy month_ble_total (fun h1 h2 => month_ble_trans h1 h2) _

theorem seriesOf_length (bF : List BioRow) (d : String) :
    (seriesOf bF d).length = (monthsOf bF d).length := by
  simp [seriesOf, monthlyFor]

theorem zScoreOf_of_var_zero {bF : List BioRow} {d : String} (m : Month)
    (h : varQ (seriesOf bF d) = 0) : zScoreOf bF d m = none := by
  rw [zScoreOf]
  simp [h]

theorem mem_spikes_iff {bF : List BioRow} {r : MZRow} :
    r ∈ spikes bF ↔
      r ∈ monthlyZ bF ∧ latestMonth bF = some r.month ∧
        ∃ v, r.z = some v ∧ (3 : ℝ) < v := by
  constructor
  · intro h
    rcases List.mem_filter.mp h with ⟨h1, h2⟩
    rw [Bool.and_eq_true] at h2
    rcases h2 with ⟨hm, hz⟩
    simp only [floatGtThree] at hz
    exact ⟨h1, of_decide_eq_true hm, of_decide_eq_true hz⟩
  · rintro ⟨h1, h2, h3⟩
    apply List.mem_filter.mpr
    refine ⟨h1, ?_⟩
    rw [Bool.and_eq_true]
    refine ⟨decide_eq_true h2, ?_⟩
    simp only [floatGtThree]
    exact decide_eq_true h3

theorem not_spike_of_z_none {bF : List BioRow} {r : MZRow} (hz : r.z = none) :
    r ∉ spikes bF := by
  intro hmem
  rcases (mem_spikes_iff.mp hmem).2.2 with ⟨v, hv, _⟩
  rw [hz] at hv
  cases hv

theorem z_none_of_short_series {bF : List BioRow} {r : MZRow}
    (hmem : r ∈ monthlyZ bF) (hlen : (monthsOf bF r.district).length < 2) :
    r.z = none := by
  rcases mem_monthlyZ.mp hmem with ⟨d, _, p, hp, rfl⟩
  have hlen2 : (monthsOf bF d).length < 2 := hlen
  have hne : monthsOf bF d ≠ [] := by
    intro h0
    rw [monthlyFor, h0] at hp
    cases hp
  have hlen1 : (monthsOf bF d).length = 1 := by
    have := List.length_pos.mpr hne
    omega
  rcases List.length_eq_one.mp ((seriesOf_length bF d).trans hlen1) with ⟨x, hx⟩
  exact zScoreOf_of_var_zero _ (hx ▸ varQ_singleton x)

/-! ### Lemmas about the district aggregation -/

theorem mem_sdKeys {α : Type} {sOf dOf : α → String} {l : List α} {k : String × String}
    (h : k ∈ sdKeys sOf dOf l) : ∃ x ∈ l, sOf x = k.1 ∧ dOf x = k.2 := by
  rcases List.mem_map.mp (List.mem_dedup.mp h) with ⟨x, hx, hxk⟩
  subst hxk
  exact ⟨x, hx, rfl, rfl⟩

theorem length_insertBy {α : Type} (le : α → α → Bool) (a : α) (l : List α) :
    (insertBy le a l).length = l.length + 1 := by
  induction l with
  | nil => rfl
  | cons b bs ih =>
      by_cases h : le a b = true
      · rw [insertBy, if_pos h]
        rfl
      · rw [insertBy, if_neg h, List.length_cons, ih]
        rfl

theorem length_sortBy {α : Type} (le : α → α → Bool) (l : List α) :
    (sortBy le l).length = l.length := by
  induction l with
  | nil => rfl
  | cons b bs ih => rw [sortBy_cons, length_insertBy, ih, List.length_cons]

theorem mem_map_sortBy_take {α β : Type} (le : α → α → Bool) (f : α → β)
    (l : List α) (n : Nat) (h : l.length ≤ n) (b : β) :
    b ∈ ((sortBy le l).take n).map f ↔ b ∈ l.map f := by
  rw [List.take_of_length_le (by rw [length_sortBy]; exact h)]
  simp only [List.mem_map]
  constructor
  · rintro ⟨a, ha, rfl⟩
    exact ⟨a, (mem_sortBy le a l).mp ha, rfl⟩
  · rintro ⟨a, ha, rfl⟩
    exact ⟨a, (mem_sortBy le a l).mpr ha, rfl⟩

theorem topDistricts_subset {t : List AggRow} {r : IRow} (h : r ∈ topDistricts t) :
    r ∈ intensityTable t := by
  rw [topDistricts] at h
  exact (mem_sortBy _ _ _).mp (List.take_subset _ _ h)

/-! ### Claim theorems -/

/-- Claim C1 (code bug): the source computes
`national_rate = merged["biometrics"].sum() / merged["population"].sum()` and
divides by it with no guard.  On an input whose surviving districts have zero
biometric activity everywhere (one district, population 21000, zero
biometrics), `national_rate` is exactly `0`, every row's
`biometric_intensity_index` is the float `0/0 = NaN` (modelled `none`), and
the NaN row still appears in the ranked top-10 output — the indicator neither
fails nor reports "undefined", contradicting the guard the specification
requires. -/
theorem c1_zero_national_rate_nan_reaches_output :
    nationalRate c1MergedF = some 0 ∧
      (∀ r ∈ intensityTable c1MergedF, r.biometric_intensity_index = none) ∧
      (∀ r ∈ topDistricts c1MergedF, r.biometric_intensity_index = none) ∧
      (topDistricts c1MergedF).length = 1 := by
  have hM : c1MergedF =
      [⟨"S", "D", 12000, 9000, 0, 0, 0, 0, 0, 21000, 0, 0⟩] := by decide
  have hnr : nationalRate c1MergedF = some 0 := by
    rw [hM]
    norm_num [nationalRate, qdiv]
  have hidx : ∀ r ∈ intensityTable c1MergedF, r.biometric_intensity_index = none := by
    intro r hr
    rcases List.mem_map.mp hr with ⟨a, ha, rfl⟩
    rw [hM] at ha
    rcases List.mem_singleton.mp ha with rfl
    show (match qdiv ((0 : ℕ) : ℚ) ((21000 : ℕ) : ℚ), nationalRate c1MergedF with
      | some pc, some nr => qdiv pc nr
      | _, _ => none) = none
    have hq1 : qdiv ((0 : ℕ) : ℚ) ((21000 : ℕ) : ℚ) = some 0 := by norm_num [qdiv]
    rw [hq1, hnr]
    norm_num [qdiv]
  refine ⟨hnr, hidx, fun r hr => hidx r (topDistricts_subset hr), ?_⟩
  have hlen : (intensityTable c1MergedF).length = 1 := by
    rw [hM]
    rfl
  rw [topDistricts, List.length_take, length_sortBy, hlen]
  rfl

/-- Claim C9: filtering and aggregation do not mutate the three in-memory
source tables.  Running the embedded script over the state of its top-level
bindings leaves the `biometric`, `enrolment` and `demographic` bindings
exactly as loaded: every stage only (re)binds its own result table. -/
theorem c9_source_tables_unchanged (fs : Filters) (b : List BioRow)
    (e : List EnrRow) (d : List DemoRow) :
    (runScript fs (loadState b e d)).biometric = b ∧
      (runScript fs (loadState b e d)).enrolment = e ∧
      (runScript fs (loadState b e d)).demographic = d :=
  ⟨rfl, rfl, rfl⟩

/-- Claim C10: the literal string `"All"` is the no-restriction sentinel of
the region filter.  When the selected region equals `"All"` the filter
applies no state restriction at all (it degenerates to the pure date filter),
so every in-range row is kept regardless of its state — in particular a state
literally named `"All"` in the data can never be isolated by an exact-match
region filter, because selecting `"All"` disables state filtering instead. -/
theorem c10_all_sentinel {α : Type} (dOf : α → Date) (sOf : α → String)
    (fs : Filters) (l : List α) (h : fs.state = "All") :
    applyFilters dOf sOf fs l =
        l.filter (fun r => Date.ble fs.startDate (dOf r) && Date.ble (dOf r) fs.endDate) ∧
      ∀ r ∈ l, Date.ble fs.startDate (dOf r) = true → Date.ble (dOf r) fs.endDate = true →
        r ∈ applyFilters dOf sOf fs l := by
  refine ⟨applyFilters_all_sentinel dOf sOf l h, ?_⟩
  intro r hr h1 h2
  rw [applyFilters_all_sentinel dOf sOf l h]
  refine List.mem_filter.mpr ⟨hr, ?_⟩
  rw [h1, h2]
  rfl

/-- Witness for C10: with region `"All"` selected on data that itself
contains a state named `"All"` next to a state `"X"`, the filter returns the
whole table, and in particular the `"X"` row is not excluded. -/
theorem c10_all_sentinel_witness :
    applyFilters BioRow.date BioRow.state c10Filters c10Bio = c10Bio ∧
      (⟨⟨2021, 4, 1⟩, "X", "D2", 3, 4⟩ : BioRow) ∈
        applyFilters BioRow.date BioRow.state c10Filters c10Bio := by
  constructor
  · rw [(c10_all_sentinel BioRow.date BioRow.state c10Filters c10Bio rfl).1]
    decide
  · exact (c10_all_sentinel BioRow.date BioRow.state c10Filters c10Bio rfl).2
      _ (by decide) (by decide) (by decide)

/-- Claim C7: for every date interval and each of the three tables, the
filter-stage output is a subsequence of the input, every output row's date
lies in `[start, end]` (and its state equals the selected region when one is
specified, i.e. when the region is not the `"All"` sentinel), and when
`start > end` the output is empty for all three tables, with no error. -/
theorem c7_filter_stage (fs : Filters) (b : List BioRow) (e : List EnrRow)
    (d : List DemoRow) :
    ((applyFilters BioRow.date BioRow.state fs b).Sublist b ∧
      (applyFilters EnrRow.date EnrRow.state fs e).Sublist e ∧
      (applyFilters DemoRow.date DemoRow.state fs d).Sublist d) ∧
    (∀ r ∈ applyFilters BioRow.date BioRow.state fs b,
        Date.ble fs.startDate r.date = true ∧ Date.ble r.date fs.endDate = true ∧
          (fs.state ≠ "All" → r.state = fs.state)) ∧
    (∀ r ∈ applyFilters EnrRow.date EnrRow.state fs e,
        Date.ble fs.startDate r.date = true ∧ Date.ble r.date fs.endDate = true ∧
          (fs.state ≠ "All" → r.state = fs.state)) ∧
    (∀ r ∈ applyFilters DemoRow.date DemoRow.state fs d,
        Date.ble fs.startDate r.date = true ∧ Date.ble r.date fs.endDate = true ∧
          (fs.state ≠ "All" → r.state = fs.state)) ∧
    (Date.ble fs.startDate fs.endDate = false →
      applyFilters BioRow.date BioRow.state fs b = [] ∧
        applyFilters EnrRow.date EnrRow.state fs e = [] ∧
        applyFilters DemoRow.date DemoRow.state fs d = []) := by
  refine ⟨⟨applyFilters_sublist _ _ _ _, applyFilters_sublist _ _ _ _,
    applyFilters_sublist _ _ _ _⟩, ?_, ?_, ?_, ?_⟩
  · intro r hr
    rcases mem_applyFilters hr with ⟨_, h1, h2, h3⟩
    exact ⟨h1, h2, h3⟩
  · intro r hr
    rcases mem_applyFilters hr with ⟨_, h1, h2, h3⟩
    exact ⟨h1, h2, h3⟩
  · intro r hr
    rcases mem_applyFilters hr with ⟨_, h1, h2, h3⟩
    exact ⟨h1, h2, h3⟩
  · intro hlt
    exact ⟨applyFilters_empty _ _ _ hlt, applyFilters_empty _ _ _ hlt,
      applyFilters_empty _ _ _ hlt⟩

/-- Witness for C7: an interval with `start > end` (2022-01-01 to 2021-01-01)
empties all three (nonempty) tables. -/
theorem c7_filter_stage_witness :
    Date.ble c7Filters.startDate c7Filters.endDate = false ∧
      applyFilters BioRow.date BioRow.state c7Filters
          [⟨⟨2021, 6, 1⟩, "S", "D", 1, 2⟩] = [] ∧
      applyFilters EnrRow.date EnrRow.state c7Filters
          [⟨⟨2021, 6, 1⟩, "S", "D", 1, 2, 3⟩] = [] ∧
      applyFilters DemoRow.date DemoRow.state c7Filters
          [⟨⟨2021, 6, 1⟩, "S", "D", 4, 5⟩] = [] := by
  refine ⟨rfl, ?_⟩
  exact (c7_filter_stage c7Filters [⟨⟨2021, 6, 1⟩, "S", "D", 1, 2⟩]
    [⟨⟨2021, 6, 1⟩, "S", "D", 1, 2, 3⟩] [⟨⟨2021, 6, 1⟩, "S", "D", 4, 5⟩]).2.2.2.2 rfl

/-- Claim C6: the geographic aggregation is a true inner join on
`(state, district)`: every row of the joined `merged` table has matching rows
in all three filtered tables, so a district absent from any one of them never
appears in `DistrictAggregate`. -/
theorem c6_inner_join (dF : List DemoRow) (bF : List BioRow) (eF : List EnrRow) :
    ∀ r ∈ mergedTable dF bF eF,
      (∃ x ∈ dF, x.state = r.state ∧ x.district = r.district) ∧
      (∃ x ∈ bF, x.state = r.state ∧ x.district = r.district) ∧
      (∃ x ∈ eF, x.state = r.state ∧ x.district = r.district) := by
  intro r hr
  rw [mergedTable] at hr
  rcases List.mem_map.mp hr with ⟨k, hk, rfl⟩
  rcases List.mem_filter.mp hk with ⟨hkd, hkbe⟩
  rw [Bool.and_eq_true] at hkbe
  have hkb := of_decide_eq_true hkbe.1
  have hke := of_decide_eq_true hkbe.2
  refine ⟨?_, ?_, ?_⟩
  · rcases mem_sdKeys hkd with ⟨x, hx, h1, h2⟩
    exact ⟨x, hx, h1, h2⟩
  · rcases mem_sdKeys hkb with ⟨x, hx, h1, h2⟩
    exact ⟨x, hx, h1, h2⟩
  · rcases mem_sdKeys hke with ⟨x, hx, h1, h2⟩
    exact ⟨x, hx, h1, h2⟩

/-- Witness for C6: on data where district `D1` occurs in all three tables
(and `D2` only in the demographic table), the joined row for `D1` is matched
by rows of all three tables. -/
theorem c6_inner_join_witness :
    (⟨"S", "D1", 7000, 6000, 10, 20, 1, 2, 3, 13000, 30, 6⟩ : AggRow) ∈
        mergedTable c6Demo c6Bio c6Enr ∧
      ((∃ x ∈ c6Demo, x.state = "S" ∧ x.district = "D1") ∧
       (∃ x ∈ c6Bio, x.state = "S" ∧ x.district = "D1") ∧
       (∃ x ∈ c6Enr, x.state = "S" ∧ x.district = "D1")) := by
  refine ⟨by decide, ?_⟩
  exact c6_inner_join c6Demo c6Bio c6Enr
    ⟨"S", "D1", 7000, 6000, 10, 20, 1, 2, 3, 13000, 30, 6⟩ (by decide)

/-- Claim C5 counterexample: in the three-district scenario (populations
50000/20000/5000, biometrics 1000 each), the below-floor district `Gamma` is
indeed dropped from the floored `merged` table, but it still appears in the
growth-rate ranking (`trend`, a ranking indicator), which is computed from
the filtered biometric events directly and never sees the population floor —
so the 5000-population district is NOT excluded from all ranking indicators,
and the rankings do not have exactly two entries. -/
theorem c5_floor_counterexample :
    (∀ r ∈ mergedFloored c5Demo c5Bio c5Enr, r.district ≠ "Gamma") ∧
      "Gamma" ∈ (trendTop c5Bio).map TrendRow.district := by
  constructor
  · decide
  · rw [trendTop, mem_map_sortBy_take _ _ _ 10 (by decide)]
    decide

/-- Claim C5 (amended): every `DistrictAggregate` row with
`population ≤ 10,000` is excluded from the ranking indicators derived from
the floored `merged` table (the biometric-intensity ranking; the state-level
per-capita aggregation consumes the same floored table); in the
50000/20000/5000 scenario exactly the two districts above the floor appear in
the intensity-index ranking — but the below-floor district still appears in
the growth-rate ranking, which is built from the monthly biometric series
without any population floor. -/
theorem c5_population_floor :
    (∀ (dF : List DemoRow) (bF : List BioRow) (eF : List EnrRow),
        ∀ r ∈ mergedFloored dF bF eF, 10000 < r.population) ∧
    (∀ (dF : List DemoRow) (bF : List BioRow) (eF : List EnrRow),
        ∀ r ∈ intensityTable (mergedFloored dF bF eF), 10000 < r.population) ∧
    ((intensityTable (mergedFloored c5Demo c5Bio c5Enr)).map IRow.district =
        ["Alpha", "Beta"] ∧
      ∀ s, s ∈ (topDistricts (mergedFloored c5Demo c5Bio c5Enr)).map IRow.district ↔
        s ∈ ["Alpha", "Beta"]) ∧
    "Gamma" ∈ (trendTable c5Bio).map TrendRow.district := by
  have h1 : ∀ (dF : List DemoRow) (bF : List BioRow) (eF : List EnrRow),
      ∀ r ∈ mergedFloored dF bF eF, 10000 < r.population := by
    intro dF bF eF r hr
    exact of_decide_eq_true (List.mem_filter.mp hr).2
  have h2 : ∀ (dF : List DemoRow) (bF : List BioRow) (eF : List EnrRow),
      ∀ r ∈ intensityTable (mergedFloored dF bF eF), 10000 < r.population := by
    intro dF bF eF r hr
    rcases List.mem_map.mp hr with ⟨a, ha, rfl⟩
    exact h1 dF bF eF a ha
  refine ⟨h1, h2, ⟨by decide, ?_⟩, by decide⟩
  intro s
  rw [topDistricts, mem_map_sortBy_take _ _ _ 10 (by decide)]
  rw [show (intensityTable (mergedFloored c5Demo c5Bio c5Enr)).map IRow.district =
    ["Alpha", "Beta"] from by decide]

/-- Witness for C5: the `Alpha` row (population 50000) survives the floor and
its population is above 10000. -/
theorem c5_population_floor_witness :
    (⟨"St", "Alpha", 30000, 20000, 1000, 0, 0, 0, 0, 50000, 1000, 0⟩ : AggRow) ∈
        mergedFloored c5Demo c5Bio c5Enr ∧
      10000 <
        (⟨"St", "Alpha", 30000, 20000, 1000, 0, 0, 0, 0, 50000, 1000, 0⟩ : AggRow).population := by
  refine ⟨by decide, ?_⟩
  exact c5_population_floor.1 c5Demo c5Bio c5Enr
    ⟨"St", "Alpha", 30000, 20000, 1000, 0, 0, 0, 0, 50000, 1000, 0⟩ (by decide)

/-- Claim C4: a district enters the growth-rate table only when the
`biometrics_total` of its earliest observed month (`first_val`) is strictly
positive, in which case `growth_rate = (last_val - first_val) / first_val`
with `first_val`/`last_val` the totals of its earliest/latest observed months
(the per-district rows of `monthly` are month-ascending, so the `first`/`last`
aggregation picks exactly those); a district whose earliest-month total is 0
never appears in the table. -/
theorem c4_growth_ranking (bF : List BioRow) :
    (∀ t ∈ trendTable bF,
        0 < t.first_val ∧
        t.growth_rate = ((t.last_val : ℚ) - (t.first_val : ℚ)) / (t.first_val : ℚ) ∧
        (∃ p ∈ monthlyFor bF t.district, p.2 = t.first_val ∧
          ∀ q ∈ monthlyFor bF t.district, Month.ble p.1 q.1 = true) ∧
        (∃ p ∈ monthlyFor bF t.district, p.2 = t.last_val ∧
          ∀ q ∈ monthlyFor bF t.district, Month.ble q.1 p.1 = true)) ∧
    (∀ d p, (monthlyFor bF d).head? = some p → p.2 = 0 →
        ∀ t ∈ trendTable bF, t.district ≠ d) := by
  constructor
  · intro t ht
    rw [trendTable] at ht
    rcases List.mem_filterMap.mp ht with ⟨d, hd, hfd⟩
    cases hh : (monthlyFor bF d).head? with
    | none => simp [hh] at hfd
    | some f =>
        cases hl : (monthlyFor bF d).getLast? with
        | none => simp [hh, hl] at hfd
        | some l =>
            simp only [hh, hl] at hfd
            by_cases hf : 0 < f.2
            · rw [if_pos hf] at hfd
              injection hfd with hfd
              subst hfd
              refine ⟨hf, rfl, ?_, ?_⟩
              · rw [monthlyFor, List.head?_map] at hh
                rcases Option.map_eq_some'.mp hh with ⟨m0, hm0, hgm0⟩
                refine ⟨f, ?_, rfl, ?_⟩
                · rw [monthlyFor, ← hgm0]
                  exact List.mem_map_of_mem _ (List.mem_of_mem_head? hm0)
                · intro q hq
                  rw [monthlyFor] at hq
                  rcases List.mem_map.mp hq with ⟨m, hm, rfl⟩
                  rw [← hgm0]
                  exact head_min (monthsOf_sorted bF d) month_ble_refl hm0 m hm
              · rw [monthlyFor, List.getLast?_map] at hl
                rcases Option.map_eq_some'.mp hl with ⟨m1, hm1, hgm1⟩
                refine ⟨l, ?_, rfl, ?_⟩
                · rw [monthlyFor, ← hgm1]
                  exact List.mem_map_of_mem _ (mem_of_getLast?_eq hm1)
                · intro q hq
                  rw [monthlyFor] at hq
                  rcases List.mem_map.mp hq with ⟨m, hm, rfl⟩
                  rw [← hgm1]
                  exact last_max (monthsOf_sorted bF d) month_ble_refl hm1 m hm
            · rw [if_neg hf] at hfd
              cases hfd
  · intro d p hp hp0 t ht heq
    rw [trendTable] at ht
    rcases List.mem_filterMap.mp ht with ⟨d2, hd2, hfd⟩
    cases hh : (monthlyFor bF d2).head? with
    | none => simp [hh] at hfd
    | some f =>
        cases hl : (monthlyFor bF d2).getLast? with
        | none => simp [hh, hl] at hfd
        | some l =>
            simp only [hh, hl] at hfd
            by_cases hf : 0 < f.2
            · rw [if_pos hf] at hfd
              injection hfd with hfd
              subst hfd
              have hdd : d2 = d := heq
              rw [hdd, hp] at hh
              injection hh with hh
              rw [hh] at hp0
              omega
            · rw [if_neg hf] at hfd
              cases hfd

/-- Witness for C4: with district `G` going 100 → 200 and district `Z` going
0 → 500, `Z` is excluded entirely while `G` is ranked with exactly 100%
growth (`growth_rate = 1`). -/
theorem c4_growth_ranking_witness :
    (∀ t ∈ trendTable c4Bio, t.district ≠ "Z") ∧
      (∃ t ∈ trendTable c4Bio, t.district = "G" ∧ t.first_val = 100 ∧
        t.last_val = 200 ∧ t.growth_rate = 1) := by
  constructor
  · exact (c4_growth_ranking c4Bio).2 "Z" ⟨⟨2021, 1⟩, 0⟩ (by decide) rfl
  · have hG : "G" ∈ (trendTable c4Bio).map TrendRow.district := by decide
    rcases List.mem_map.mp hG with ⟨t, ht, htd⟩
    have h2 : (t.district, t.first_val, t.last_val) ∈
        (trendTable c4Bio).map (fun t => (t.district, t.first_val, t.last_val)) :=
      List.mem_map_of_mem _ ht
    rw [show (trendTable c4Bio).map (fun t => (t.district, t.first_val, t.last_val)) =
      [("G", 100, 200)] from by decide] at h2
    have h3 := List.mem_singleton.mp h2
    have hf : t.first_val = 100 := congrArg (fun q => q.2.1) h3
    have hl : t.last_val = 200 := congrArg (fun q => q.2.2) h3
    have hg := ((c4_growth_ranking c4Bio).1 t ht).2.1
    rw [hf, hl] at hg
    refine ⟨t, ht, htd, hf, hl, ?_⟩
    rw [hg]
    norm_num

/-- Claim C2 counterexample: for the district `"D"` of `c2Bio`, whose
`biometrics_total` is 5 in both observed months, the per-district z-score is
NOT 0: `scipy.stats.zscore` divides by the zero standard deviation and yields
NaN (modelled `none`) for every month, so "the z-score is exactly 0 for every
month" is false at this input. -/
theorem c2_constant_series_counterexample :
    ¬ ∀ r ∈ monthlyZ c2Bio, r.z = some (0 : ℝ) := by
  intro h
  have hall : ∀ x ∈ seriesOf c2Bio "D", x = (5 : ℚ) := by decide
  have hz : zScoreOf c2Bio "D" ⟨2021, 1⟩ = none :=
    zScoreOf_of_var_zero _ (varQ_const hall)
  have hm : (⟨"D", ⟨2021, 1⟩, 5, zScoreOf c2Bio "D" ⟨2021, 1⟩⟩ : MZRow) ∈ monthlyZ c2Bio :=
    mem_monthlyZ.mpr ⟨"D", by decide, ⟨⟨2021, 1⟩, 5⟩, by decide, rfl⟩
  have h2 : zScoreOf c2Bio "D" ⟨2021, 1⟩ = some (0 : ℝ) := h _ hm
  rw [hz] at h2
  cases h2

/-- Claim C2 (amended): for every district whose `biometrics_total` is the
same in every observed month, the per-district z-score is undefined (NaN,
modelled `none`) for every month of that district — the zero variance makes
`scipy.stats.zscore` return NaN, not 0 — and consequently no such row is ever
emitted as a spike (NaN never compares `> 3`). -/
theorem c2_constant_series_undefined (bF : List BioRow) (d : String)
    (h : ∀ x ∈ seriesOf bF d, ∀ y ∈ seriesOf bF d, x = y) :
    ∀ r ∈ monthlyZ bF, r.district = d → r.z = none ∧ r ∉ spikes bF := by
  intro r hr hrd
  have hz : r.z = none := by
    rcases mem_monthlyZ.mp hr with ⟨d2, _, p, hp, rfl⟩
    have hdd : d2 = d := hrd
    subst hdd
    cases hseq : seriesOf bF d2 with
    | nil =>
        refine zScoreOf_of_var_zero _ ?_
        rw [hseq]
        simp [varQ]
    | cons x t =>
        have hall : ∀ y ∈ seriesOf bF d2, y = x := by
          intro y hy
          exact h y hy x (by rw [hseq]; exact List.mem_cons_self x t)
        exact zScoreOf_of_var_zero _ (varQ_const hall)
  exact ⟨hz, not_spike_of_z_none hz⟩

/-- Witness for C2 (amended): the constant-series district of `c2Bio` has
`none` z-scores everywhere and never spikes. -/
theorem c2_constant_series_witness :
    (∀ x ∈ seriesOf c2Bio "D", ∀ y ∈ seriesOf c2Bio "D", x = y) ∧
      ∀ r ∈ monthlyZ c2Bio, r.district = "D" → r.z = none ∧ r ∉ spikes c2Bio :=
  ⟨by decide, fun r hr hd => c2_constant_series_undefined c2Bio "D" (by decide) r hr hd⟩

/-- Claim C3: the spike-alert table contains exactly the rows of the monthly
series whose month is the maximum month present across all districts and
whose z-score is a number strictly greater than 3; the latest month really is
an upper bound of all observed months; and a district with fewer than two
observed months has an undefined (`none`) z-score and is never emitted as a
spike. -/
theorem c3_spike_alerts (bF : List BioRow) :
    (∀ r : MZRow, r ∈ spikes bF ↔
        (r ∈ monthlyZ bF ∧ latestMonth bF = some r.month ∧
          ∃ v, r.z = some v ∧ (3 : ℝ) < v)) ∧
    (∀ M, latestMonth bF = some M →
        ∀ r ∈ monthlyZ bF, Month.ble r.month M = true) ∧
    (∀ r ∈ monthlyZ bF, (monthsOf bF r.district).length < 2 →
        r.z = none ∧ r ∉ spikes bF) := by
  refine ⟨fun r => mem_spikes_iff, ?_, ?_⟩
  · intro M hM r hr
    have hmem : r.month ∈ (monthlyTable bF).map (fun x => x.month) := by
      rw [← monthlyZ_months]
      exact List.mem_map_of_mem _ hr
    exact (maxMonth_spec hM).2 _ hmem
  · intro r hr hlen
    have hz := z_none_of_short_series hr hlen
    exact ⟨hz, not_spike_of_z_none hz⟩

/-- Witness for C3: in `c3Bio` (monthly totals 2,5,6,6,8,8,8,8,9,9,41; mean
10, population std 10) the last month's z-score is 3.1 > 3 and that row is
emitted as a spike; in `c3OneBio` the single-month district has `none`
z-scores and emits nothing. -/
theorem c3_spike_alerts_witness :
    (∃ r, r ∈ spikes c3Bio ∧ r.month = ⟨2021, 11⟩) ∧
      (∀ r ∈ monthlyZ c3OneBio, r.z = none ∧ r ∉ spikes c3OneBio) := by
  constructor
  · refine ⟨⟨"D", ⟨2021, 11⟩, 41, zScoreOf c3Bio "D" ⟨2021, 11⟩⟩, ?_, rfl⟩
    apply ((c3_spike_alerts c3Bio).1 _).mpr
    refine ⟨mem_monthlyZ.mpr ⟨"D", by decide, ⟨⟨2021, 11⟩, 41⟩, by decide, rfl⟩,
      by decide, ?_⟩
    have hser : seriesOf c3Bio "D" = [2, 5, 6, 6, 8, 8, 8, 8, 9, 9, 41] := by decide
    have hmean : meanQ (seriesOf c3Bio "D") = 10 := by
      rw [hser]
      norm_num [meanQ]
    have hvar : varQ (seriesOf c3Bio "D") = 100 := by
      rw [varQ, hmean, hser]
      norm_num
    have htot : ((bioMonthTotal c3Bio "D" ⟨2021, 11⟩ : ℕ) : ℚ) = 41 := by
      rw [show bioMonthTotal c3Bio "D" ⟨2021, 11⟩ = 41 from by decide]
      norm_num
    refine ⟨(((41 : ℚ) - 10 : ℚ) : ℝ) / Real.sqrt (((100 : ℚ) : ℝ)), ?_, ?_⟩
    · show zScoreOf c3Bio "D" ⟨2021, 11⟩ = _
      simp only [zScoreOf]
      rw [hvar, hmean, htot]
      rw [if_neg (by norm_num : ¬(100 : ℚ) = 0)]
    · have h100 : (((100 : ℚ) : ℝ)) = (10 : ℝ) ^ 2 := by norm_num
      rw [h100, Real.sqrt_sq (by norm_num : (0 : ℝ) ≤ 10)]
      norm_num
  · intro r hr
    rcases hmem : mem_monthlyZ.mp hr with ⟨d, hd, p, hp, hrr⟩
    have hd1 : d ∈ ["E"] := by
      rw [show districtsOf c3OneBio = ["E"] from by decide] at hd
      exact hd
    rcases List.mem_singleton.mp hd1 with rfl
    refine (c3_spike_alerts c3OneBio).2.2 r hr ?_
    rw [hrr]
    exact (show (monthsOf c3OneBio "E").length < 2 from by decide)

/-- Claim C8: when the date-aligned adult-enrolment series equals the
date-aligned adult-biometric series and has nonzero variance, the pipeline's
lead-indicator Pearson correlation is exactly 1. -/
theorem c8_self_correlation (eF : List EnrRow) (bF : List BioRow)
    (h : corrX (corrDf eF bF) = corrY (corrDf eF bF))
    (hv : sxy (corrX (corrDf eF bF)) (corrX (corrDf eF bF)) ≠ 0) :
    leadCorr eF bF = some 1 := by
  rw [leadCorr, ← h, pearson]
  have hcond : ¬ (sxy (corrX (corrDf eF bF)) (corrX (corrDf eF bF)) = 0 ∨
      sxy (corrX (corrDf eF bF)) (corrX (corrDf eF bF)) = 0) := by
    intro hc
    rcases hc with hc | hc <;> exact hv hc
  rw [if_neg hcond]
  have hs : (0 : ℚ) ≤ sxy (corrX (corrDf eF bF)) (corrX (corrDf eF bF)) :=
    sxy_self_nonneg _
  congr 1
  rw [Real.sqrt_mul_self (by exact_mod_cast hs)]
  rw [div_self (by exact_mod_cast hv)]

/-- Witness for C8: duplicating the adult enrolment feed as the biometric
feed (series [1, 2] on two shared dates) gives correlation exactly 1. -/
theorem c8_self_correlation_witness :
    corrX (corrDf c8Enr c8Bio) = corrY (corrDf c8Enr c8Bio) ∧
      sxy (corrX (corrDf c8Enr c8Bio)) (corrX (corrDf c8Enr c8Bio)) ≠ 0 ∧
      leadCorr c8Enr c8Bio = some 1 := by
  have hx : corrX (corrDf c8Enr c8Bio) = [1, 2] := by decide
  have hv : sxy (corrX (corrDf c8Enr c8Bio)) (corrX (corrDf c8Enr c8Bio)) ≠ 0 := by
    rw [hx]
    norm_num [sxy, meanQ, List.zip_cons_cons]
  exact ⟨by decide, hv, c8_self_correlation c8Enr c8Bio (by decide) hv⟩
